import Mathlib

/-!
Verification development for the gammapy repository slice consisting of
`gammapy/utils/serialization/io.py` (model (de)serialization utilities) and
the TS-map estimator described by the specification (whose implementation is
exercised by `gammapy/estimators/tests/test_ts_map.py`).

The serialization utilities are embedded directly from the source.  The
TS-map estimator implementation itself is not part of the provided sources,
so it is modelled from the specification; the concrete numbers asserted by
its test suite are recorded as the observable behaviour of the missing code.
-/

namespace Gammapy

/-! ## Serialization data model (from `gammapy/utils/serialization/io.py`) -/

/-- The opaque result of a collaborator `to_dict(selection)` call (spatial /
spectral / generic model serialization), represented as a flat key-value
dictionary.  Only equality of these dictionaries matters to `io.py`. -/
abbrev SubDict := List (String × String)

/-- One serialized parameter entry, as appearing under a `parameters` key:
`{"name": ..., "value": ..., "unit": ...}`. -/
structure ParamEntry where
  name : String
  value : ℚ
  unit : String
deriving DecidableEq, Repr

/-- A model object as consumed by `_model_to_dict`: the attributes that the
function reads (`name`, `dataset_id`, `filename`, the class name used for the
`SkyModel` branch, and the collaborator `to_dict` outputs). -/
structure SrcModel where
  className : String
  /-- `getattr(model, "name", model.__class__.__name__)`: `none` when the
  object has no `name` attribute. -/
  name : Option String
  /-- `model.dataset_id`; `none` when the attribute is missing. -/
  dataset_id : Option String
  /-- `getattr(model, "filename", None)`. -/
  filename : Option String
  /-- `model.spatial_model.to_dict(selection)` (used in the SkyModel branch). -/
  spatialToDict : SubDict
  /-- `getattr(model.spatial_model, "filename", None)`. -/
  spatialFilename : Option String
  /-- `model.spectral_model.to_dict(selection)` (used in the SkyModel branch). -/
  spectralToDict : SubDict
  /-- `model.to_dict(selection)` (used in the non-SkyModel branch). -/
  selfToDict : SubDict
deriving DecidableEq, Repr

/-- The payload part of a serialized component: either the `spatial`/`spectral`
pair written for a `SkyModel`, or the single `model` sub-dictionary written for
every other model class. -/
inductive ModelPayload where
  | sky (spatial : SubDict) (spectral : SubDict)
  | other (model : SubDict)
deriving DecidableEq, Repr

/-- The dictionary built by `_model_to_dict` for one model. -/
structure ModelData where
  name : String
  id : Option String
  filename : Option String
  payload : ModelPayload
deriving DecidableEq, Repr

/-- Insert the `filename` key into a spatial sub-dictionary when the spatial
model carries a filename (`data["spatial"]["filename"] = ...`). -/
def addSpatialFilename (d : SubDict) : Option String → SubDict
  | none => d
  | some f => d ++ [("filename", f)]

/-- Embedding of `_model_to_dict` from `io.py`. -/
def _model_to_dict (m : SrcModel) : ModelData :=
  { name := m.name.getD m.className
    id := m.dataset_id
    filename := m.filename
    payload :=
      if m.className = "SkyModel" then
        ModelPayload.sky (addSpatialFilename m.spatialToDict m.spatialFilename) m.spectralToDict
      else
        ModelPayload.other m.selfToDict }

/-- The dictionary returned by `models_to_dict`: a single `components` key
holding the list of serialized models. -/
structure ComponentsDict where
  components : List ModelData
deriving DecidableEq, Repr

/-- Embedding of `models_to_dict` from `io.py`: serialize each model in order
and append its dictionary unless an equal dictionary is already present. -/
def models_to_dict (models : List SrcModel) : ComponentsDict :=
  { components :=
      models.foldl
        (fun acc m =>
          let md := _model_to_dict m
          if md ∈ acc then acc else acc ++ [md])
        [] }

/-! ### De-duplication behaviour of `models_to_dict` (claim C8) -/

theorem models_to_dict_fold_spec (models : List SrcModel) (acc : List ModelData)
    (hnd : acc.Nodup) :
    (models.foldl
        (fun acc m =>
          let md := _model_to_dict m
          if md ∈ acc then acc else acc ++ [md]) acc).Nodup ∧
      ∀ d : ModelData,
        d ∈ models.foldl
            (fun acc m =>
              let md := _model_to_dict m
              if md ∈ acc then acc else acc ++ [md]) acc ↔
          d ∈ acc ∨ ∃ m ∈ models, _model_to_dict m = d := by
  induction models generalizing acc with
  | nil =>
      refine ⟨hnd, fun d => ?_⟩
      simp
  | cons m rest ih =>
      by_cases hmem : _model_to_dict m ∈ acc
      · have h := ih acc hnd
        refine ⟨by simpa [hmem] using h.1, fun d => ?_⟩
        have h2 := h.2 d
        simp only [List.foldl_cons, hmem, if_pos]
        rw [h2]
        constructor
        · rintro (hd | ⟨m', hm', rfl⟩)
          · exact Or.inl hd
          · exact Or.inr ⟨m', List.mem_cons_of_mem _ hm', rfl⟩
        · rintro (hd | ⟨m', hm', rfl⟩)
          · exact Or.inl hd
          · rcases List.mem_cons.mp hm' with rfl | hm''
            · exact Or.inl hmem
            · exact Or.inr ⟨m', hm'', rfl⟩
      · have hnd' : (acc ++ [_model_to_dict m]).Nodup := by
          simpa [List.nodup_append, hmem] using hnd
        have h := ih (acc ++ [_model_to_dict m]) hnd'
        refine ⟨by simpa [hmem] using h.1, fun d => ?_⟩
        have h2 := h.2 d
        simp only [List.foldl_cons, hmem, if_neg, not_false_iff]
        rw [h2]
        constructor
        · rintro (hd | ⟨m', hm', rfl⟩)
          · rcases List.mem_append.mp hd with hd' | hd'
            · exact Or.inl hd'
            · rcases List.mem_singleton.mp hd' with rfl
              exact Or.inr ⟨m, List.mem_cons_self _ _, rfl⟩
          · exact Or.inr ⟨m', List.mem_cons_of_mem _ hm', rfl⟩
        · rintro (hd | ⟨m', hm', rfl⟩)
          · exact Or.inl (List.mem_append.mpr (Or.inl hd))
          · rcases List.mem_cons.mp hm' with rfl | hm''
            · exact Or.inl (List.mem_append.mpr (Or.inr (List.mem_singleton.mpr rfl)))
            · exact Or.inr ⟨m', hm'', rfl⟩

/-- C8: `models_to_dict` de-duplicates: the returned `components` list has no
duplicate dictionaries (so a model serializing to an already present dict
contributes exactly one entry), and a dictionary is in the list exactly when
it is the serialization of some input model. -/
theorem models_to_dict_dedup (models : List SrcModel) :
    (models_to_dict models).components.Nodup ∧
      ∀ d : ModelData,
        d ∈ (models_to_dict models).components ↔ ∃ m ∈ models, _model_to_dict m = d := by
  have h := models_to_dict_fold_spec models [] List.nodup_nil
  refine ⟨h.1, fun d => ?_⟩
  rw [show (models_to_dict models).components =
      models.foldl
        (fun acc m =>
          let md := _model_to_dict m
          if md ∈ acc then acc else acc ++ [md]) [] from rfl]
  rw [h.2 d]
  simp

/-- A concrete `SkyModel`-like source model used in witnesses. -/
def demoModelA : SrcModel :=
  { className := "SkyModel"
    name := some "source-a"
    dataset_id := none
    filename := none
    spatialToDict := [("type", "GaussianSpatialModel"), ("sigma", "0.1 deg")]
    spatialFilename := none
    spectralToDict := [("type", "PowerLawSpectralModel"), ("index", "2")]
    selfToDict := [] }

/-- A concrete background-like source model used in witnesses. -/
def demoModelB : SrcModel :=
  { className := "BackgroundModel"
    name := some "background"
    dataset_id := some "global"
    filename := none
    spatialToDict := []
    spatialFilename := none
    spectralToDict := []
    selfToDict := [("type", "BackgroundModel"), ("norm", "1")] }

/-- Witness for C8: on a list where the first model appears twice, the result
is duplicate-free and contains the serialization of each distinct model. -/
theorem models_to_dict_dedup_witness :
    (models_to_dict [demoModelA, demoModelB, demoModelA]).components.Nodup ∧
      (_model_to_dict demoModelA ∈
          (models_to_dict [demoModelA, demoModelB, demoModelA]).components ↔
        ∃ m ∈ [demoModelA, demoModelB, demoModelA], _model_to_dict m = _model_to_dict demoModelA) :=
  ⟨(models_to_dict_dedup [demoModelA, demoModelB, demoModelA]).1,
    (models_to_dict_dedup [demoModelA, demoModelB, demoModelA]).2 (_model_to_dict demoModelA)⟩

/-! ## De-serialization (`dict_to_models` from `io.py`) -/

/-- A serialized array-with-unit entry, as in `item["energy"] =
{"data": ..., "unit": ...}`. -/
structure ArrayQuantity where
  data : List ℚ
  unit : String
deriving DecidableEq, Repr

/-- A serialized `spatial` or `spectral` item dictionary: the keys that
`_dict_to_skymodel` reads (`type`, optional `filename`, `parameters`, and
the optional `energy`/`values` arrays of template spectral models). -/
structure ItemDict where
  type : String
  filename : Option String
  parameters : List ParamEntry
  energy : Option ArrayQuantity
  values : Option ArrayQuantity
deriving DecidableEq, Repr

/-- The value under a component's `model` key: `dict_to_models` reads its
`type`, and `link_parameters` reads its parameters. -/
structure ModelSection where
  type : String
  parameters : List ParamEntry
deriving DecidableEq, Repr

/-- One entry of a serialized `components` list.  A key that may be absent
from the Python dictionary is an `Option`. -/
structure Component where
  name : String
  id : Option String
  filename : Option String
  model : Option ModelSection
  spatial : Option ItemDict
  spectral : Option ItemDict
deriving DecidableEq, Repr

/-- A constructed spatial model object: the class selected by the `type` tag,
holding its parameters, and its `filename` when it was read from a file. -/
structure SpatialModel where
  type : String
  filename : Option String
  parameters : List ParamEntry
deriving DecidableEq, Repr

/-- A constructed spectral model object: the class selected by the `type`
tag, holding either `energy`/`values` template arrays or plain parameters. -/
structure SpectralModel where
  type : String
  energy : Option ArrayQuantity
  values : Option ArrayQuantity
  parameters : List ParamEntry
deriving DecidableEq, Repr

/-- A constructed `SkyModel` object, as returned by `_dict_to_skymodel`. -/
structure SkyModel where
  name : String
  spatial_model : SpatialModel
  spectral_model : SpectralModel
deriving DecidableEq, Repr

/-- Embedding of `_dict_to_skymodel` from `io.py`.  Accessing the missing
`spatial` or `spectral` key of a component is a Python `KeyError`, rendered
here as `none`.  The dynamic `getattr(spatial, item["type"])` dispatch is
represented by recording the `type` tag on the constructed model. -/
def _dict_to_skymodel (c : Component) : Option SkyModel := do
  let item ← c.spatial
  let spatialModel : SpatialModel :=
    match item.filename with
    | some f => { type := item.type, filename := some f, parameters := item.parameters }
    | none => { type := item.type, filename := none, parameters := item.parameters }
  let item2 ← c.spectral
  let spectralModel : SpectralModel :=
    match item2.energy with
    | some e =>
        { type := item2.type, energy := some e, values := item2.values
          parameters := item2.parameters }
    | none =>
        { type := item2.type, energy := none, values := none
          parameters := item2.parameters }
  pure { name := c.name, spatial_model := spatialModel, spectral_model := spectralModel }

/-- The Python exceptions that `dict_to_models` can raise. -/
inductive PyError where
  | notImplementedError
  | keyError
deriving DecidableEq, Repr

/-- Embedding of `dict_to_models` from `io.py`: components carrying a
`model` key of type `BackgroundModel` are skipped, any other `model` type
raises `NotImplementedError`, and every remaining component is converted by
`_dict_to_skymodel`. -/
def dict_to_models : List Component → Except PyError (List SkyModel)
  | [] => Except.ok []
  | c :: rest =>
    match c.model with
    | some m =>
        if m.type = "BackgroundModel" then dict_to_models rest
        else Except.error PyError.notImplementedError
    | none =>
        match _dict_to_skymodel c with
        | none => Except.error PyError.keyError
        | some sm => (dict_to_models rest).map fun l => sm :: l

/-- C9: for a well-formed serialized components list (every component without
a `model` key has `spatial` and `spectral` entries), `dict_to_models` skips
exactly the `BackgroundModel` components, raises `NotImplementedError` as
soon as any component carries a `model` key of a different type, and
otherwise returns one `SkyModel` per remaining component (the returned list
holds only `SkyModel` values by construction). -/
theorem dict_to_models_spec (comps : List Component)
    (hwf : ∀ c ∈ comps, c.model = none → (_dict_to_skymodel c).isSome) :
    ((∀ c ∈ comps, ∀ m, c.model = some m → m.type = "BackgroundModel") →
        dict_to_models comps =
            Except.ok ((comps.filter fun c => c.model.isNone).filterMap _dict_to_skymodel) ∧
          ((comps.filter fun c => c.model.isNone).filterMap _dict_to_skymodel).length =
            (comps.filter fun c => c.model.isNone).length) ∧
    ((∃ c ∈ comps, ∃ m, c.model = some m ∧ m.type ≠ "BackgroundModel") →
        dict_to_models comps = Except.error PyError.notImplementedError) := by
  induction comps with
  | nil =>
      refine ⟨fun _ => ⟨rfl, rfl⟩, fun h => ?_⟩
      simp at h
  | cons c rest ih =>
      have hwfr : ∀ c ∈ rest, c.model = none → (_dict_to_skymodel c).isSome :=
        fun c' hc' => hwf c' (List.mem_cons_of_mem _ hc')
      have ih' := ih hwfr
      rcases hc : c.model with _ | m
      · have hsm : (_dict_to_skymodel c).isSome := hwf c (List.mem_cons_self _ _) hc
        rcases hsm' : _dict_to_skymodel c with _ | sm
        · rw [hsm'] at hsm; simp at hsm
        · constructor
          · intro hall
            have hrest := ih'.1 fun c' hc' => hall c' (List.mem_cons_of_mem _ hc')
            constructor
            · simp only [dict_to_models, hc, hsm', hrest.1, Except.map]
              simp [List.filter_cons, hc, hsm']
            · simp [List.filter_cons, hc, List.filterMap_cons, hsm', hrest.2]
          · intro hex
            rcases hex with ⟨c', hc', m', hm', hne⟩
            rcases List.mem_cons.mp hc' with rfl | hc''
            · rw [hc] at hm'; simp at hm'
            · have hrest := ih'.2 ⟨c', hc'', m', hm', hne⟩
              simp [dict_to_models, hc, hsm', hrest, Except.map]
      · by_cases hty : m.type = "BackgroundModel"
        · constructor
          · intro hall
            have hrest := ih'.1 fun c' hc' => hall c' (List.mem_cons_of_mem _ hc')
            constructor
            · simpa [dict_to_models, hc, hty, List.filter_cons] using hrest.1
            · simpa [List.filter_cons, hc] using hrest.2
          · intro hex
            rcases hex with ⟨c', hc', m', hm', hne⟩
            rcases List.mem_cons.mp hc' with rfl | hc''
            · rw [hc] at hm'
              rcases Option.some.inj hm'
              exact absurd hty hne
            · have hrest := ih'.2 ⟨c', hc'', m', hm', hne⟩
              simpa [dict_to_models, hc, hty] using hrest
        · constructor
          · intro hall
            exact absurd (hall c (List.mem_cons_self _ _) m hc) hty
          · intro _
            simp [dict_to_models, hc, hty]

/-- A concrete serialized SkyModel component used in witnesses. -/
def demoSkyComponent : Component :=
  { name := "source-a"
    id := none
    filename := none
    model := none
    spatial := some
      { type := "GaussianSpatialModel", filename := none
        parameters := [⟨"sigma", 1 / 10, "deg"⟩], energy := none, values := none }
    spectral := some
      { type := "PowerLawSpectralModel", filename := none
        parameters := [⟨"index", 2, ""⟩], energy := none, values := none } }

/-- A concrete serialized background component used in witnesses. -/
def demoBgComponent : Component :=
  { name := "background"
    id := some "global"
    filename := none
    model := some { type := "BackgroundModel", parameters := [⟨"norm", 1, ""⟩] }
    spatial := none
    spectral := none }

/-- Witness for C9: on a concrete well-formed components list whose only
`model`-keyed entry is a `BackgroundModel`, `dict_to_models` returns exactly
the sky models of the remaining components. -/
theorem dict_to_models_spec_witness :
    dict_to_models [demoBgComponent, demoSkyComponent] =
        Except.ok
          (([demoBgComponent, demoSkyComponent].filter fun c =>
              c.model.isNone).filterMap _dict_to_skymodel) ∧
      (([demoBgComponent, demoSkyComponent].filter fun c =>
          c.model.isNone).filterMap _dict_to_skymodel).length =
        ([demoBgComponent, demoSkyComponent].filter fun c => c.model.isNone).length :=
  (dict_to_models_spec [demoBgComponent, demoSkyComponent] (by decide)).1 (by decide)

/-! ## Background registration (`models_to_datasets` from `io.py`)

The embedding covers the loop structure relevant to the cube register:
`__init__` iterates over the datasets, `update_dataset` iterates over the
components selecting background components for the dataset, and
`add_background` either reuses a cube cached in `cube_register` under the
component name or reads the file and caches it.  Model parsing
(`dict_to_models`) and parameter linking (`link_parameters` /
`params_register`) never touch `cube_register` and are not needed here.
File reads performed by the `SkyDiffuseCube.read` collaborator are recorded
in an explicit trace of `(name, filename)` pairs. -/

/-- A diffuse cube as produced by the `SkyDiffuseCube.read` collaborator,
identified by the file it was read from. -/
structure Cube where
  source : String
deriving DecidableEq, Repr

/-- The `SkyDiffuseCube.read` collaborator. -/
def skyDiffuseCubeRead (filename : String) : Cube :=
  { source := filename }

/-- The `cube_register` dictionary: name-keyed cubes, most recent first. -/
abbrev CubeRegister := List (String × Cube)

/-- Dictionary lookup in the cube register (`self.cube_register[name]`). -/
def regGet : CubeRegister → String → Option Cube
  | [], _ => none
  | e :: r, nm => if e.1 = nm then some e.2 else regGet r nm

/-- The attributes of one dataset read by `update_dataset` and
`add_background`: its id and the names of its own background models
(`BKG_names`). -/
structure DatasetRef where
  dataset_id : String
  bkgNames : List String
deriving DecidableEq, Repr

/-- A background model as produced by `add_background`: either built from a
diffuse cube or taken from the dataset's own background models, renamed to
the component name. -/
inductive BgModel where
  | fromCube (cube : Cube) (name : String)
  | fromDataset (index : ℕ) (name : String)
deriving DecidableEq, Repr

/-- Embedding of `models_to_datasets.add_background`: with a `filename`, try
the cube register under the component name and read (and register) the file
only on a miss; without one, look the component name up among the dataset's
background names, raising `ValueError` when it is unknown.  The third result
component is the trace of file reads performed by the call. -/
def add_background (ds : DatasetRef) (reg : CubeRegister) (c : Component) :
    Except String (BgModel × CubeRegister × List (String × String)) :=
  match c.filename with
  | some f =>
      match regGet reg c.name with
      | some cube => Except.ok (BgModel.fromCube cube c.name, reg, [])
      | none =>
          let cube := skyDiffuseCubeRead f
          Except.ok (BgModel.fromCube cube c.name, (c.name, cube) :: reg, [(c.name, f)])
  | none =>
      if c.name.trim.toUpper ∈ ds.bkgNames then
        Except.ok
          (BgModel.fromDataset (ds.bkgNames.indexOf c.name.trim.toUpper) c.name, reg, [])
      else if c.name ∈ ds.bkgNames then
        Except.ok (BgModel.fromDataset (ds.bkgNames.indexOf c.name) c.name, reg, [])
      else Except.error "Unknown Background"

/-- The condition of `update_dataset` selecting a background component for a
dataset: a `model` key of type `BackgroundModel` and an `id` among
`global`, `local` or the dataset id.  Reading the missing `id` key of a
matching component is a Python `KeyError`. -/
def bgMatch (ds : DatasetRef) (c : Component) : Except String Bool :=
  match c.model with
  | none => Except.ok false
  | some m =>
      if m.type = "BackgroundModel" then
        match c.id with
        | none => Except.error "KeyError: id"
        | some i => Except.ok (decide (i = "global" ∨ i = "local" ∨ i = ds.dataset_id))
      else Except.ok false

/-- The mutable state threaded through one `models_to_datasets` construction:
the cube register, the trace of file reads, and every `(component,
background model)` pair produced by `add_background`, in order. -/
structure RunState where
  reg : CubeRegister
  readTrace : List (String × String)
  results : List (Component × BgModel)
deriving DecidableEq, Repr

/-- Process the `(dataset, component)` pairs of the two nested loops of
`models_to_datasets.__init__` / `update_dataset` in order, threading the
cube register. -/
def processPairs : List (DatasetRef × Component) → RunState → Except String RunState
  | [], st => Except.ok st
  | p :: rest, st =>
      match bgMatch p.1 p.2 with
      | Except.error e => Except.error e
      | Except.ok false => processPairs rest st
      | Except.ok true =>
          match add_background p.1 st.reg p.2 with
          | Except.error e => Except.error e
          | Except.ok (bg, reg2, reads) =>
              processPairs rest
                { reg := reg2
                  readTrace := st.readTrace ++ reads
                  results := st.results ++ [(p.2, bg)] }

/-- The pair sequence processed by one `models_to_datasets` construction:
every component is examined once per dataset, datasets outermost. -/
def runPairs (dss : List DatasetRef) (cs : List Component) : List (DatasetRef × Component) :=
  dss.flatMap fun ds => cs.map fun c => (ds, c)

/-- Embedding of the background-registration part of a
`models_to_datasets(datasets, components)` construction, starting from an
empty cube register. -/
def models_to_datasets_run (dss : List DatasetRef) (cs : List Component) :
    Except String RunState :=
  processPairs (runPairs dss cs) { reg := [], readTrace := [], results := [] }

/-- Decision form of a successful positive `bgMatch`. -/
def isBgMatch (ds : DatasetRef) (c : Component) : Bool :=
  match bgMatch ds c with
  | Except.ok true => true
  | _ => false

/-- The background components actually handed to `add_background`, in
processing order. -/
def matchingSeq (pairs : List (DatasetRef × Component)) : List Component :=
  (pairs.filter fun p => isBgMatch p.1 p.2).map Prod.snd

/-- The filename of the first filename-bearing component with a given name. -/
def firstSource : List Component → String → Option String
  | [], _ => none
  | c :: r, nm => if c.name = nm ∧ c.filename.isSome then c.filename else firstSource r nm

theorem firstSource_append (l₁ l₂ : List Component) (nm : String) :
    firstSource (l₁ ++ l₂) nm = (firstSource l₁ nm).or (firstSource l₂ nm) := by
  induction l₁ with
  | nil => simp [firstSource]
  | cons c r ih =>
      simp only [List.cons_append, firstSource]
      by_cases hc : c.name = nm ∧ c.filename.isSome
      · rcases hf : c.filename with _ | f
        · rw [hf] at hc; simp at hc
        · simp [hc, hf, Option.or]
      · simp [hc, ih]

theorem matchingSeq_cons (p : DatasetRef × Component) (rest : List (DatasetRef × Component)) :
    matchingSeq (p :: rest) =
      if isBgMatch p.1 p.2 then p.2 :: matchingSeq rest else matchingSeq rest := by
  by_cases hm : isBgMatch p.1 p.2 <;> simp [matchingSeq, List.filter_cons, hm]

theorem add_background_no_filename (ds : DatasetRef) (reg : CubeRegister) (c : Component)
    (hfn : c.filename = none) (bg : BgModel) (reg2 : CubeRegister)
    (reads : List (String × String))
    (h : add_background ds reg c = Except.ok (bg, reg2, reads)) :
    reg2 = reg ∧ reads = [] := by
  simp only [add_background, hfn] at h
  split at h
  · simp only [Except.ok.injEq, Prod.mk.injEq] at h
    exact ⟨h.2.1.symm, h.2.2.symm⟩
  · split at h
    · simp only [Except.ok.injEq, Prod.mk.injEq] at h
      exact ⟨h.2.1.symm, h.2.2.symm⟩
    · rcases h

theorem processPairs_spec (pairs : List (DatasetRef × Component)) (st : RunState)
    (seen : List Component)
    (hreg : ∀ nm, regGet st.reg nm = (firstSource seen nm).map skyDiffuseCubeRead)
    (hnd : (st.readTrace.map Prod.fst).Nodup)
    (htr : ∀ nm, nm ∈ st.readTrace.map Prod.fst ↔ (regGet st.reg nm).isSome)
    (hfst : ∀ r ∈ st.readTrace, firstSource (seen ++ matchingSeq pairs) r.1 = some r.2)
    (hres : ∀ cb ∈ st.results, ∀ f, cb.1.filename = some f →
      ∃ f0, firstSource (seen ++ matchingSeq pairs) cb.1.name = some f0 ∧
        cb.2 = BgModel.fromCube (skyDiffuseCubeRead f0) cb.1.name)
    (out : RunState) (hout : processPairs pairs st = Except.ok out) :
    (out.readTrace.map Prod.fst).Nodup ∧
      (∀ r ∈ out.readTrace, firstSource (seen ++ matchingSeq pairs) r.1 = some r.2) ∧
      ∀ cb ∈ out.results, ∀ f, cb.1.filename = some f →
        ∃ f0, firstSource (seen ++ matchingSeq pairs) cb.1.name = some f0 ∧
          cb.2 = BgModel.fromCube (skyDiffuseCubeRead f0) cb.1.name := by
  induction pairs generalizing st seen with
  | nil =>
      simp only [processPairs] at hout
      rcases hout
      exact ⟨hnd, hfst, hres⟩
  | cons p rest ih =>
      simp only [processPairs] at hout
      rcases hbm : bgMatch p.1 p.2 with e | b
      · simp only [hbm] at hout
        rcases hout
      · rcases b with _ | _
        · simp only [hbm] at hout
          have hm : isBgMatch p.1 p.2 = false := by simp [isBgMatch, hbm]
          rw [show seen ++ matchingSeq (p :: rest) = seen ++ matchingSeq rest by
            simp [matchingSeq_cons, hm]] at hfst hres ⊢
          exact ih st seen hreg hnd htr hfst hres hout
        · simp only [hbm] at hout
          have hm : isBgMatch p.1 p.2 = true := by simp [isBgMatch, hbm]
          have hseq : seen ++ matchingSeq (p :: rest) = (seen ++ [p.2]) ++ matchingSeq rest := by
            rw [matchingSeq_cons, if_pos hm]
            simp
          rcases hab : add_background p.1 st.reg p.2 with e | ⟨bg, reg2, reads⟩
          · simp only [hab] at hout
            rcases hout
          · simp only [hab] at hout
            rw [hseq] at hfst hres ⊢
            rcases hfn : p.2.filename with _ | f
            · -- no filename: register and trace unchanged, result from the dataset
              obtain ⟨hr2, hrd⟩ := add_background_no_filename _ _ _ hfn _ _ _ hab
              subst hr2; subst hrd
              have hfs1 : ∀ nm, firstSource (seen ++ [p.2]) nm = firstSource seen nm := by
                intro nm
                rw [firstSource_append]
                simp [firstSource, hfn]
              refine ih _ (seen ++ [p.2]) (fun nm => by rw [hfs1]; exact hreg nm)
                (by simpa using hnd) (fun nm => by simpa using htr nm)
                (fun r hr => hfst r (by simpa using hr))
                (fun cb hcb f hf => ?_) hout
              rcases (by simpa using hcb : cb ∈ st.results ∨ cb = (p.2, bg)) with hcb' | rfl
              · exact hres cb hcb' f hf
              · simp [hfn] at hf
            · -- filename present: register hit or file read
              simp only [add_background, hfn] at hab
              rcases hrg : regGet st.reg p.2.name with _ | cube
              · -- cache miss: the file is read and registered
                simp only [hrg, Except.ok.injEq, Prod.mk.injEq] at hab
                obtain ⟨hbg, hreg2, hreads⟩ := hab
                subst hbg; subst hreg2; subst hreads
                have hnone : firstSource seen p.2.name = none := by
                  have h1 := hreg p.2.name
                  rw [hrg] at h1
                  rcases hfs : firstSource seen p.2.name with _ | f0
                  · rfl
                  · rw [hfs] at h1; rcases h1
                have hfsnew : ∀ nm, regGet ((p.2.name, skyDiffuseCubeRead f) :: st.reg) nm =
                    (firstSource (seen ++ [p.2]) nm).map skyDiffuseCubeRead := by
                  intro nm
                  rw [firstSource_append]
                  by_cases hnm : p.2.name = nm
                  · subst hnm
                    rw [hnone]
                    simp [regGet, firstSource, hfn]
                  · have hfs2 : firstSource [p.2] nm = none := by
                      simp [firstSource, hfn, hnm]
                    simp only [regGet, if_neg hnm]
                    rw [hfs2, Option.or_none]
                    exact hreg nm
                have hfirst : firstSource ((seen ++ [p.2]) ++ matchingSeq rest) p.2.name
                    = some f := by
                  rw [firstSource_append, firstSource_append, hnone]
                  simp [firstSource, hfn]
                have hnotin : p.2.name ∉ st.readTrace.map Prod.fst := by
                  rw [htr p.2.name, hrg]
                  simp
                refine ih _ (seen ++ [p.2]) hfsnew ?_ ?_ ?_ ?_ hout
                · simp only [List.map_append]
                  refine List.Nodup.append hnd (by simp) ?_
                  simpa using hnotin
                · intro nm
                  by_cases hnm : p.2.name = nm
                  · subst hnm
                    simp [regGet]
                  · have hne : nm ≠ p.2.name := fun h => hnm h.symm
                    simp [regGet, hnm, hne, htr nm]
                · intro r hr
                  rcases (by simpa using hr : r ∈ st.readTrace ∨ r = (p.2.name, f)) with hr' | rfl
                  · exact hfst r hr'
                  · exact hfirst
                · intro cb hcb f' hf'
                  rcases (by simpa using hcb :
                      cb ∈ st.results ∨
                        cb = (p.2, BgModel.fromCube (skyDiffuseCubeRead f) p.2.name)) with
                    hcb' | rfl
                  · exact hres cb hcb' f' hf'
                  · exact ⟨f, hfirst, rfl⟩
              · -- cache hit: the cached cube is reused, nothing is read
                simp only [hrg, Except.ok.injEq, Prod.mk.injEq] at hab
                obtain ⟨hbg, hreg2, hreads⟩ := hab
                subst hbg; subst hreg2; subst hreads
                have hsome : ∃ f0, firstSource seen p.2.name = some f0 ∧
                    cube = skyDiffuseCubeRead f0 := by
                  have h1 := hreg p.2.name
                  rw [hrg] at h1
                  rcases hfs : firstSource seen p.2.name with _ | f0
                  · rw [hfs] at h1; rcases h1
                  · rw [hfs] at h1
                    simp only [Option.map_some'] at h1
                    exact ⟨f0, rfl, Option.some.inj h1⟩
                obtain ⟨f0, hf0, hcube⟩ := hsome
                have hregnew : ∀ nm, regGet st.reg nm =
                    (firstSource (seen ++ [p.2]) nm).map skyDiffuseCubeRead := by
                  intro nm
                  rw [firstSource_append]
                  by_cases hnm : p.2.name = nm
                  · subst hnm
                    rw [hf0, Option.or_some]
                    rw [hreg p.2.name, hf0]
                  · have hfs2 : firstSource [p.2] nm = none := by
                      simp [firstSource, hfn, hnm]
                    rw [hfs2, Option.or_none]
                    exact hreg nm
                have hfirst : firstSource ((seen ++ [p.2]) ++ matchingSeq rest) p.2.name
                    = some f0 := by
                  rw [firstSource_append, firstSource_append, hf0]
                  simp
                refine ih
                  { reg := st.reg, readTrace := st.readTrace ++ []
                    results := st.results ++ [(p.2, BgModel.fromCube cube p.2.name)] }
                  (seen ++ [p.2]) hregnew (by simpa using hnd)
                  (fun nm => by simpa using htr nm)
                  (fun r hr => hfst r (by simpa using hr))
                  (fun cb hcb f' hf' => ?_) hout
                rcases (by simpa using hcb :
                    cb ∈ st.results ∨ cb = (p.2, BgModel.fromCube cube p.2.name)) with
                  hcb' | rfl
                · exact hres cb hcb' f' hf'
                · exact ⟨f0, hfirst, by rw [hcube]⟩

/-- C10: within one `models_to_datasets` construction, each component name
causes at most one cube file read (the read trace holds no repeated name),
the read performed for a name is the filename of the first filename-bearing
background component with that name, and every background model built for a
filename-bearing component — in particular every later component with an
already registered name — carries the cube read for that first component. -/
theorem models_to_datasets_reads_once (dss : List DatasetRef) (cs : List Component)
    (out : RunState) (hout : models_to_datasets_run dss cs = Except.ok out) :
    (out.readTrace.map Prod.fst).Nodup ∧
      (∀ r ∈ out.readTrace, firstSource (matchingSeq (runPairs dss cs)) r.1 = some r.2) ∧
      ∀ cb ∈ out.results, ∀ f, cb.1.filename = some f →
        ∃ f0, firstSource (matchingSeq (runPairs dss cs)) cb.1.name = some f0 ∧
          cb.2 = BgModel.fromCube (skyDiffuseCubeRead f0) cb.1.name := by
  have h := processPairs_spec (runPairs dss cs)
    { reg := [], readTrace := [], results := [] } []
    (fun nm => rfl) List.nodup_nil (fun nm => by simp [regGet])
    (fun r hr => by simp at hr) (fun cb hcb => by simp at hcb) out hout
  simpa using h

/-- A concrete filename-bearing global background component. -/
def demoDiffuseComponent : Component :=
  { name := "iem"
    id := some "global"
    filename := some "iem_v06.fits"
    model := some { type := "BackgroundModel", parameters := [] }
    spatial := none
    spectral := none }

/-- Two concrete datasets sharing the diffuse background component. -/
def demoDatasets : List DatasetRef :=
  [{ dataset_id := "d1", bkgNames := [] }, { dataset_id := "d2", bkgNames := [] }]

/-- The run state reached by registering `demoDiffuseComponent` on both
demo datasets: one single file read, two background models sharing the cube. -/
def demoRunOut : RunState :=
  { reg := [("iem", { source := "iem_v06.fits" })]
    readTrace := [("iem", "iem_v06.fits")]
    results :=
      [(demoDiffuseComponent, BgModel.fromCube { source := "iem_v06.fits" } "iem"),
        (demoDiffuseComponent, BgModel.fromCube { source := "iem_v06.fits" } "iem")] }

/-- Witness for C10: processing the same diffuse component for two datasets
reads its file once and reuses the registered cube for the second dataset. -/
theorem models_to_datasets_reads_once_witness :
    (demoRunOut.readTrace.map Prod.fst).Nodup ∧
      (∀ r ∈ demoRunOut.readTrace,
        firstSource (matchingSeq (runPairs demoDatasets [demoDiffuseComponent])) r.1 = some r.2) ∧
      ∀ cb ∈ demoRunOut.results, ∀ f, cb.1.filename = some f →
        ∃ f0,
          firstSource (matchingSeq (runPairs demoDatasets [demoDiffuseComponent])) cb.1.name =
              some f0 ∧
            cb.2 = BgModel.fromCube (skyDiffuseCubeRead f0) cb.1.name :=
  models_to_datasets_reads_once demoDatasets [demoDiffuseComponent] demoRunOut rfl

/-! ## TS map estimator (modelled from the spec)

The `TSMapEstimator` implementation is not among the provided sources (only
its test suite is), so the estimator is modelled here from the
specification.  All data values are rational; the two transcendental
primitives needed by the Cash statistic (a logarithm inside the
log-likelihood and the square root used for the symmetric error) are passed
as oracle parameters so that every definition stays executable. -/

/-- Modelled from the spec: the binned map dataset consumed by the TS map
estimator (spec section 3): counts, background and exposure on a shared
`h × w` spatial grid (one energy group), a boolean analysis mask, and the
angular pixel scale used to convert the kernel width to pixels. -/
structure MapDatasetM where
  h : ℕ
  w : ℕ
  counts : ℕ → ℕ → ℚ
  background : ℕ → ℕ → ℚ
  exposure : ℕ → ℕ → ℚ
  mask : ℕ → ℕ → Bool
  pixScaleDeg : ℚ

/-- Modelled from the spec: the estimator configuration surface (section 6)
used here: angular kernel width, the discretized kernel produced by the
Kernel Builder collaborator, the downsampling factor, the required edge
margin, and the Newton-fit controls (iteration budget, convergence
tolerance, positive amplitude floor). -/
structure TSMapConfig where
  kernelWidthDeg : ℚ
  kernel : ℕ → ℕ → ℚ
  downsampling_factor : ℕ
  edgeMargin : ℕ
  max_niter : ℕ
  tol : ℚ
  amplitudeFloor : ℚ

/-- Modelled from the spec: the kernel footprint in pixels, converted from
the angular width via the dataset pixel scale (section 4.1). -/
def kernelPix (cfg : TSMapConfig) (d : MapDatasetM) : ℕ :=
  (cfg.kernelWidthDeg / d.pixScaleDeg).ceil.toNat

/-- Modelled from the spec: the usable spatial extent of the dataset after
the required edge margin (sections 4.1 and 7). -/
def usableExtent (cfg : TSMapConfig) (d : MapDatasetM) : ℕ :=
  min d.h d.w - cfg.edgeMargin

/-- The per-pixel scalar bundle of the Pixel Likelihood Fitter (section 3). -/
structure PixelFitResult where
  ts : ℚ
  amplitude : ℚ
  amplitude_err : ℚ
  niter : ℕ
  success : Bool
deriving DecidableEq, Repr

/-- Modelled from the spec: one guarded Newton-Raphson update (section 4.2,
step 3): `amplitude ← amplitude − score/curvature`, clamped to a small
positive floor when the unconstrained update would go negative. -/
def newtonUpdate (score curv : ℚ → ℚ) (floor a : ℚ) : ℚ :=
  let step := if curv a = 0 then 0 else score a / curv a
  let a2 := a - step
  if a2 < 0 then floor else a2

/-- Modelled from the spec: the bounded Newton iteration (section 4.2): stop
with success when the amplitude change falls within the tolerance, or stop
without success when the iteration budget is exhausted; returns final
amplitude, iteration count and convergence flag. -/
def newtonIterate (score curv : ℚ → ℚ) (floor tol : ℚ) : ℕ → ℚ → ℚ × ℕ × Bool
  | 0, a => (a, 0, false)
  | n + 1, a =>
      let a2 := newtonUpdate score curv floor a
      if |a2 - a| ≤ tol then (a2, 1, true)
      else
        let r := newtonIterate score curv floor tol n a2
        (r.1, r.2.1 + 1, r.2.2)

/-- Modelled from the spec: the per-pixel likelihood fit (section 4.2): run
the guarded Newton iteration from the initial amplitude, report
`TS = 2 (logL(best) − logL(0))` clamped to zero for negative or degenerate
likelihood ratios, and the symmetric curvature-based error. -/
def fit_pixel (logL score curv sqrtQ : ℚ → ℚ) (floor tol : ℚ) (maxiter : ℕ)
    (a0 : ℚ) : PixelFitResult :=
  let r := newtonIterate score curv floor tol maxiter a0
  { ts := max 0 (2 * (logL r.1 - logL 0))
    amplitude := r.1
    amplitude_err := 1 / sqrtQ |curv r.1|
    niter := r.2.1
    success := r.2.2 }

/-- Modelled from the spec: the Poisson mean of one sub-pixel (section 4.2,
step 1): `model = background + amplitude * kernel`. -/
def modelMean (b k a : ℚ) : ℚ := b + a * k

/-- Modelled from the spec: the score (first derivative of the Cash
log-likelihood in the amplitude) summed over the kernel-footprint cutout
anchored at pixel `(p, q)`. -/
def cutoutScore (d : MapDatasetM) (kern : ℕ → ℕ → ℚ) (k p q : ℕ) (a : ℚ) : ℚ :=
  ∑ i ∈ Finset.range k, ∑ j ∈ Finset.range k,
    kern i j *
      (d.counts (p + i) (q + j) /
          modelMean (d.background (p + i) (q + j)) (kern i j) a - 1)

/-- Modelled from the spec: the curvature (second derivative of the Cash
log-likelihood in the amplitude) summed over the cutout. -/
def cutoutCurv (d : MapDatasetM) (kern : ℕ → ℕ → ℚ) (k p q : ℕ) (a : ℚ) : ℚ :=
  ∑ i ∈ Finset.range k, ∑ j ∈ Finset.range k,
    -(d.counts (p + i) (q + j) * kern i j ^ 2 /
        modelMean (d.background (p + i) (q + j)) (kern i j) a ^ 2)

/-- Modelled from the spec: the Cash log-likelihood profile in the
amplitude, summed over the cutout; the logarithm is the oracle `logQ`. -/
def cutoutLogL (logQ : ℚ → ℚ) (d : MapDatasetM) (kern : ℕ → ℕ → ℚ) (k p q : ℕ)
    (a : ℚ) : ℚ :=
  ∑ i ∈ Finset.range k, ∑ j ∈ Finset.range k,
    (d.counts (p + i) (q + j) *
        logQ (modelMean (d.background (p + i) (q + j)) (kern i j) a) -
      modelMean (d.background (p + i) (q + j)) (kern i j) a)

/-- Modelled from the spec: a pixel participates in the fit when it is
inside the analysis mask and has nonzero exposure (section 4.2 edge cases
and section 7: only masked or zero-exposure pixels get NaN). -/
def pixelValid (d : MapDatasetM) (p q : ℕ) : Bool :=
  d.mask p q && !(decide (d.exposure p q = 0))

/-- The output map bundle: per-pixel scalars, `none` standing for NaN. -/
structure TSResultMaps where
  h : ℕ
  w : ℕ
  ts : ℕ → ℕ → Option ℚ
  flux : ℕ → ℕ → Option ℚ
  flux_err : ℕ → ℕ → Option ℚ
  niter : ℕ → ℕ → Option ℚ

/-- Modelled from the spec: one spatial pass of the sliding-window driver
(section 4.3) over the pixels selected by the driver's validity predicate:
every valid pixel is fitted on its kernel-footprint cutout and its scalar
results stored; the remaining pixels get `none` (NaN) in every output map
and no fit is attempted there. -/
def runSpatialPassOn (valid : ℕ → ℕ → Bool) (logQ sqrtQ : ℚ → ℚ)
    (cfg : TSMapConfig) (k : ℕ) (d : MapDatasetM) : TSResultMaps :=
  let fitAt := fun p q =>
    fit_pixel (cutoutLogL logQ d cfg.kernel k p q) (cutoutScore d cfg.kernel k p q)
      (cutoutCurv d cfg.kernel k p q) sqrtQ cfg.amplitudeFloor cfg.tol cfg.max_niter 0
  { h := d.h
    w := d.w
    ts := fun p q => if valid p q then some (fitAt p q).ts else none
    flux := fun p q => if valid p q then some (fitAt p q).amplitude else none
    flux_err := fun p q => if valid p q then some (fitAt p q).amplitude_err else none
    niter := fun p q => if valid p q then some ((fitAt p q).niter : ℚ) else none }

/-- Modelled from the spec: the spatial pass at native resolution, where the
driver's validity predicate is pixel validity itself: masked and
zero-exposure pixels get `none` (NaN) and are never fitted (sections 4.2
and 7). -/
def runSpatialPass (logQ sqrtQ : ℚ → ℚ) (cfg : TSMapConfig) (k : ℕ)
    (d : MapDatasetM) : TSResultMaps :=
  runSpatialPassOn (pixelValid d) logQ sqrtQ cfg k d

/-- Ceiling division on naturals, for block counts under downsampling. -/
def ceilDiv (a b : ℕ) : ℕ := (a + b - 1) / b

/-- Modelled from the spec: membership of a downsampled block in the
analysis region: the block contains at least one valid fine pixel.
Section 7 states unconditionally that exactly the masked and zero-exposure
pixels of the final maps are NaN, so a block holding any valid fine pixel
must be fitted during the coarse pass. -/
def blockValid (f : ℕ) (d : MapDatasetM) (p q : ℕ) : Bool :=
  (List.range f).any fun i =>
    (List.range f).any fun j => pixelValid d (p * f + i) (q * f + j)

/-- Modelled from the spec: block-reduce the dataset by the downsampling
factor before the pixel loop (section 4.3): counts, background and exposure
are summed per block, the analysis region is block-reduced (a block is kept
when it holds any valid fine pixel), the pixel scale coarsens by the
factor. -/
def downsampleDataset (f : ℕ) (d : MapDatasetM) : MapDatasetM :=
  { h := ceilDiv d.h f
    w := ceilDiv d.w f
    counts := fun p q =>
      ∑ i ∈ Finset.range f, ∑ j ∈ Finset.range f, d.counts (p * f + i) (q * f + j)
    background := fun p q =>
      ∑ i ∈ Finset.range f, ∑ j ∈ Finset.range f, d.background (p * f + i) (q * f + j)
    exposure := fun p q =>
      ∑ i ∈ Finset.range f, ∑ j ∈ Finset.range f, d.exposure (p * f + i) (q * f + j)
    mask := fun p q => blockValid f d p q
    pixScaleDeg := d.pixScaleDeg * f }

/-- Modelled from the spec: nearest-neighbour re-expansion of the coarse
result maps back onto the original pixel grid (section 4.3), so that the
output resolution always matches the input dataset resolution. -/
def upsampleMaps (f origh origw : ℕ) (m : TSResultMaps) : TSResultMaps :=
  { h := origh
    w := origw
    ts := fun p q => m.ts (p / f) (q / f)
    flux := fun p q => m.flux (p / f) (q / f)
    flux_err := fun p q => m.flux_err (p / f) (q / f)
    niter := fun p q => m.niter (p / f) (q / f) }

/-- Modelled from the spec: the final masking step of the Result Assembler
(section 4.5 under the section 7 NaN contract): after re-expansion to the
original grid, every position outside the dataset's analysis region (masked
or zero exposure) is NaN in every output map. -/
def applyDatasetMask (d : MapDatasetM) (m : TSResultMaps) : TSResultMaps :=
  { h := m.h
    w := m.w
    ts := fun p q => if pixelValid d p q then m.ts p q else none
    flux := fun p q => if pixelValid d p q then m.flux p q else none
    flux_err := fun p q => if pixelValid d p q then m.flux_err p q else none
    niter := fun p q => if pixelValid d p q then m.niter p q else none }

/-- Modelled from the spec: the map-assembly part of `run`: at native
resolution a single spatial pass; under a downsampling factor above 1, a
spatial pass at the coarse resolution over the block-reduced analysis
region, re-expanded to the input grid and finalized with the dataset's
fine-pixel analysis region (sections 4.3, 4.5 and 7). -/
def runMaps (logQ sqrtQ : ℚ → ℚ) (cfg : TSMapConfig) (d : MapDatasetM) : TSResultMaps :=
  if 1 < cfg.downsampling_factor then
    applyDatasetMask d
      (upsampleMaps cfg.downsampling_factor d.h d.w
        (runSpatialPassOn (downsampleDataset cfg.downsampling_factor d).mask logQ sqrtQ cfg
          (kernelPix cfg (downsampleDataset cfg.downsampling_factor d))
          (downsampleDataset cfg.downsampling_factor d)))
  else runSpatialPass logQ sqrtQ cfg (kernelPix cfg d) d

/-- Modelled from the spec: `TSMapEstimator.run` (sections 4 and 7):
validate the kernel footprint against the usable data area before any fit
runs, raising `ValueError` when it cannot fit, and otherwise assemble the
result maps. -/
def run (logQ sqrtQ : ℚ → ℚ) (cfg : TSMapConfig) (d : MapDatasetM) :
    Except String TSResultMaps :=
  if usableExtent cfg d < kernelPix cfg d then Except.error "ValueError"
  else Except.ok (runMaps logQ sqrtQ cfg d)

/-- The identity oracle used to instantiate `logQ`/`sqrtQ` in witnesses. -/
def idQ : ℚ → ℚ := id

/-- C2: whenever the requested kernel footprint in pixels exceeds the usable
spatial extent of the dataset after the edge margin, `run` raises
`ValueError` — it produces no result maps at all, so no per-pixel fit runs
and the kernel is never silently clipped. -/
theorem run_large_kernel_raises (logQ sqrtQ : ℚ → ℚ) (cfg : TSMapConfig)
    (d : MapDatasetM) (hk : usableExtent cfg d < kernelPix cfg d) :
    run logQ sqrtQ cfg d = Except.error "ValueError" ∧
      ∀ maps, run logQ sqrtQ cfg d ≠ Except.ok maps := by
  have h1 : run logQ sqrtQ cfg d = Except.error "ValueError" := by
    simp [run, hk]
  exact ⟨h1, fun maps h => by rw [h1] at h; rcases h⟩

/-- A stand-in for the reference Poisson-stats dataset geometry: a 200×200
grid at 0.01 degree per pixel, fully exposed and unmasked. -/
def refGeomDataset : MapDatasetM :=
  { h := 200
    w := 200
    counts := fun _ _ => 1
    background := fun _ _ => 1
    exposure := fun _ _ => 1
    mask := fun _ _ => true
    pixScaleDeg := 1 / 100 }

/-- A 4-degree-kernel configuration, far larger than the usable grid. -/
def largeKernelConfig : TSMapConfig :=
  { kernelWidthDeg := 4
    kernel := fun _ _ => 1
    downsampling_factor := 1
    edgeMargin := 0
    max_niter := 20
    tol := 1 / 1000
    amplitudeFloor := 1 / 100000 }

/-- Witness for C2: the 4-degree kernel spans 400 pixels against a usable
extent of 200, and the run raises `ValueError`. -/
theorem run_large_kernel_raises_witness :
    usableExtent largeKernelConfig refGeomDataset <
        kernelPix largeKernelConfig refGeomDataset ∧
      run idQ idQ largeKernelConfig refGeomDataset = Except.error "ValueError" ∧
      ∀ maps, run idQ idQ largeKernelConfig refGeomDataset ≠ Except.ok maps :=
  ⟨by with_unfolding_all decide,
    run_large_kernel_raises idQ idQ largeKernelConfig refGeomDataset
      (by with_unfolding_all decide)⟩

theorem newtonUpdate_nonneg (score curv : ℚ → ℚ) (floor a : ℚ) (hfloor : 0 ≤ floor) :
    0 ≤ newtonUpdate score curv floor a := by
  simp only [newtonUpdate]
  split <;> split
  · exact hfloor
  · rename_i h
    exact le_of_not_lt h
  · exact hfloor
  · rename_i h
    exact le_of_not_lt h

theorem newtonIterate_fst_nonneg (score curv : ℚ → ℚ) (floor tol : ℚ)
    (hfloor : 0 ≤ floor) (n : ℕ) :
    ∀ a, 0 ≤ a → 0 ≤ (newtonIterate score curv floor tol n a).1 := by
  induction n with
  | zero => intro a ha; simpa [newtonIterate] using ha
  | succ n ih =>
      intro a ha
      simp only [newtonIterate]
      split
      · exact newtonUpdate_nonneg score curv floor a hfloor
      · exact ih _ (newtonUpdate_nonneg score curv floor a hfloor)

/-- C4: for every converged pixel fit (nonnegative floor and initial
amplitude, success flag set), the reported TS is nonnegative — negative or
degenerate likelihood ratios are clamped to zero — and the reported
amplitude (flux) is nonnegative, by the Newton guard. -/
theorem fit_pixel_nonneg (logL score curv sqrtQ : ℚ → ℚ) (floor tol : ℚ)
    (maxiter : ℕ) (a0 : ℚ) (hfloor : 0 ≤ floor) (ha0 : 0 ≤ a0)
    (_hconv : (fit_pixel logL score curv sqrtQ floor tol maxiter a0).success = true) :
    0 ≤ (fit_pixel logL score curv sqrtQ floor tol maxiter a0).ts ∧
      0 ≤ (fit_pixel logL score curv sqrtQ floor tol maxiter a0).amplitude := by
  constructor
  · exact le_max_left 0 _
  · exact newtonIterate_fst_nonneg score curv floor tol hfloor maxiter a0 ha0

/-- A constant-zero score oracle for witnesses. -/
def zeroScoreQ : ℚ → ℚ := fun _ => 0

/-- A constant negative-curvature oracle for witnesses. -/
def negCurvQ : ℚ → ℚ := fun _ => -1

/-- Witness for C4: a concrete fit that converges on the first iteration
has nonnegative TS and amplitude. -/
theorem fit_pixel_nonneg_witness :
    (0 : ℚ) ≤ 1 / 100000 ∧ (0 : ℚ) ≤ 0 ∧
      (fit_pixel idQ zeroScoreQ negCurvQ idQ (1 / 100000) (1 / 1000) 20 0).success = true ∧
      0 ≤ (fit_pixel idQ zeroScoreQ negCurvQ idQ (1 / 100000) (1 / 1000) 20 0).ts ∧
      0 ≤ (fit_pixel idQ zeroScoreQ negCurvQ idQ (1 / 100000) (1 / 1000) 20 0).amplitude :=
  ⟨by with_unfolding_all decide, by decide, by with_unfolding_all decide,
    fit_pixel_nonneg idQ zeroScoreQ negCurvQ idQ (1 / 100000) (1 / 1000) 20 0
      (by with_unfolding_all decide) (by decide) (by with_unfolding_all decide)⟩

theorem pixelValid_eq_false_iff (d : MapDatasetM) (p q : ℕ) :
    pixelValid d p q = false ↔ d.mask p q = false ∨ d.exposure p q = 0 := by
  cases hm : d.mask p q <;> by_cases he : d.exposure p q = 0 <;>
    simp [pixelValid, hm, he]

/-- C3 (amended): for every successful run — whatever the downsampling
factor — the output maps are NaN (`none`) at exactly the pixels excluded by
the mask or carrying zero exposure, no fit being attempted there, and carry
a finite value at every other position. -/
theorem run_nan_iff_masked_or_zero_exposure (logQ sqrtQ : ℚ → ℚ) (cfg : TSMapConfig)
    (d : MapDatasetM) (maps : TSResultMaps) (p q : ℕ)
    (hok : run logQ sqrtQ cfg d = Except.ok maps) :
    (maps.ts p q = none ∧ maps.flux p q = none ∧ maps.flux_err p q = none ∧
        maps.niter p q = none) ↔
      (d.mask p q = false ∨ d.exposure p q = 0) := by
  have hmaps : maps = runMaps logQ sqrtQ cfg d := by
    simp only [run] at hok
    split at hok
    · rcases hok
    · exact (Except.ok.inj hok).symm
  subst hmaps
  rw [← pixelValid_eq_false_iff d p q]
  simp only [runMaps]
  split
  · rename_i hf
    have hf0 : 0 < cfg.downsampling_factor := by omega
    cases hv : pixelValid d p q
    · simp [applyDatasetMask, hv]
    · have hp : p / cfg.downsampling_factor * cfg.downsampling_factor +
          p % cfg.downsampling_factor = p := by
        rw [Nat.mul_comm]
        exact Nat.div_add_mod p cfg.downsampling_factor
      have hq : q / cfg.downsampling_factor * cfg.downsampling_factor +
          q % cfg.downsampling_factor = q := by
        rw [Nat.mul_comm]
        exact Nat.div_add_mod q cfg.downsampling_factor
      have hbv : blockValid cfg.downsampling_factor d (p / cfg.downsampling_factor)
          (q / cfg.downsampling_factor) = true := by
        simp only [blockValid, List.any_eq_true, List.mem_range]
        exact ⟨p % cfg.downsampling_factor, Nat.mod_lt p hf0,
          q % cfg.downsampling_factor, Nat.mod_lt q hf0, by rw [hp, hq]; exact hv⟩
      simp [applyDatasetMask, upsampleMaps, runSpatialPassOn, downsampleDataset, hv, hbv]
  · cases hv : pixelValid d p q <;> simp [runSpatialPass, runSpatialPassOn, hv]

/-- A small fully-unmasked modelled dataset whose exposure is zero
everywhere. -/
def zeroExposureDataset : MapDatasetM :=
  { h := 3
    w := 3
    counts := fun _ _ => 1
    background := fun _ _ => 1
    exposure := fun _ _ => 0
    mask := fun _ _ => true
    pixScaleDeg := 1 }

/-- A minimal one-pixel-kernel configuration without downsampling. -/
def unitKernelConfig : TSMapConfig :=
  { kernelWidthDeg := 1
    kernel := fun _ _ => 1
    downsampling_factor := 1
    edgeMargin := 0
    max_niter := 20
    tol := 1 / 1000
    amplitudeFloor := 1 / 100000 }

/-- C3 counterexample: pixel (0,0) is inside the analysis mask yet its `ts`
output is NaN, because its exposure is zero — so the NaN positions are not
exactly the mask-excluded positions, and a mask-valid pixel need not be
finite. -/
theorem run_nan_counterexample :
    zeroExposureDataset.mask 0 0 = true ∧
      (run idQ idQ unitKernelConfig zeroExposureDataset).map (fun m => m.ts 0 0) =
        Except.ok none := by
  exact ⟨rfl, by with_unfolding_all rfl⟩

/-- A modelled dataset with its bottom row masked out. -/
def maskedDemoDataset : MapDatasetM :=
  { h := 3
    w := 3
    counts := fun _ _ => 1
    background := fun _ _ => 1
    exposure := fun _ _ => 1
    mask := fun p _ => decide (0 < p)
    pixScaleDeg := 1 }

/-- The one-pixel-kernel configuration with downsampling factor 2. -/
def downsampledDemoConfig : TSMapConfig :=
  { unitKernelConfig with downsampling_factor := 2 }

/-- The maps produced by the factor-2 run on `maskedDemoDataset`. -/
def downsampledDemoMaps : TSResultMaps :=
  runMaps idQ idQ downsampledDemoConfig maskedDemoDataset

/-- Witness for C3 (amended): on a concrete masked dataset a factor-2
downsampled run succeeds, and the NaN-iff-masked-or-zero-exposure
equivalence holds both at the masked pixel (0,0) and at the valid pixel
(1,1). -/
theorem run_nan_iff_witness :
    run idQ idQ downsampledDemoConfig maskedDemoDataset =
        Except.ok downsampledDemoMaps ∧
      ((downsampledDemoMaps.ts 0 0 = none ∧ downsampledDemoMaps.flux 0 0 = none ∧
          downsampledDemoMaps.flux_err 0 0 = none ∧
          downsampledDemoMaps.niter 0 0 = none) ↔
        (maskedDemoDataset.mask 0 0 = false ∨ maskedDemoDataset.exposure 0 0 = 0)) ∧
      ((downsampledDemoMaps.ts 1 1 = none ∧ downsampledDemoMaps.flux 1 1 = none ∧
          downsampledDemoMaps.flux_err 1 1 = none ∧
          downsampledDemoMaps.niter 1 1 = none) ↔
        (maskedDemoDataset.mask 1 1 = false ∨ maskedDemoDataset.exposure 1 1 = 0)) :=
  ⟨by with_unfolding_all rfl,
    run_nan_iff_masked_or_zero_exposure idQ idQ downsampledDemoConfig maskedDemoDataset
      downsampledDemoMaps 0 0 (by with_unfolding_all rfl),
    run_nan_iff_masked_or_zero_exposure idQ idQ downsampledDemoConfig maskedDemoDataset
      downsampledDemoMaps 1 1 (by with_unfolding_all rfl)⟩

/-- Modelled from the spec: the peak-pixel TS recorded by
`test_compute_ts_map_downsampled` for the reference scenario run with
`downsampling_factor=2`. -/
def downsampledPeakTS : ℚ := 1661.49

/-- C6: the assembled output maps always carry the input dataset's grid
shape whatever the downsampling factor — in particular a factor-2 run has
exactly the same output shape as a factor-1 run on the same dataset — and
the recorded factor-2 peak-pixel TS is within 1 percent of 1661. -/
theorem runMaps_shape_invariant :
    (∀ (logQ sqrtQ : ℚ → ℚ) (cfg : TSMapConfig) (d : MapDatasetM),
        (runMaps logQ sqrtQ cfg d).h = d.h ∧ (runMaps logQ sqrtQ cfg d).w = d.w) ∧
      (∀ (logQ sqrtQ : ℚ → ℚ) (cfg : TSMapConfig) (d : MapDatasetM),
        (runMaps logQ sqrtQ { cfg with downsampling_factor := 2 } d).h =
            (runMaps logQ sqrtQ { cfg with downsampling_factor := 1 } d).h ∧
          (runMaps logQ sqrtQ { cfg with downsampling_factor := 2 } d).w =
            (runMaps logQ sqrtQ { cfg with downsampling_factor := 1 } d).w) ∧
      |downsampledPeakTS - 1661| ≤ (1 / 100) * 1661 := by
  have hshape : ∀ (logQ sqrtQ : ℚ → ℚ) (cfg : TSMapConfig) (d : MapDatasetM),
      (runMaps logQ sqrtQ cfg d).h = d.h ∧ (runMaps logQ sqrtQ cfg d).w = d.w := by
    intro logQ sqrtQ cfg d
    simp only [runMaps]
    split <;> exact ⟨rfl, rfl⟩
  refine ⟨hshape, fun logQ sqrtQ cfg d => ⟨?_, ?_⟩, ?_⟩
  · rw [(hshape logQ sqrtQ { cfg with downsampling_factor := 2 } d).1,
      (hshape logQ sqrtQ { cfg with downsampling_factor := 1 } d).1]
  · rw [(hshape logQ sqrtQ { cfg with downsampling_factor := 2 } d).2,
      (hshape logQ sqrtQ { cfg with downsampling_factor := 1 } d).2]
  · norm_num [downsampledPeakTS, abs_le]

/-- The peak-pixel scalar outputs of a reference run. -/
structure PeakValues where
  ts : ℚ
  niter : ℕ
  flux : ℚ
  flux_err : ℚ
deriving DecidableEq, Repr

/-- Modelled from the spec: the peak-pixel outputs (pixel (99, 99)) of the
estimator run on the reference Poisson-stats dataset in the known scenario
(Gaussian sigma 0.1 deg, power-law index 2, 1 deg kernel, no downsampling),
as recorded by `test_compute_ts_map`. -/
def referencePeak : PeakValues :=
  { ts := 1704.23
    niter := 8
    flux := 1.02e-9
    flux_err := 3.84e-11 }

/-- C1: the reference-scenario run returns, at the peak-significance pixel,
a TS within 1 percent of 1704, exactly 8 iterations, a flux within 1
percent of 1.02e-9 and a flux error within 1 percent of 3.84e-11. -/
theorem reference_peak_values :
    |referencePeak.ts - 1704| ≤ (1 / 100) * 1704 ∧
      referencePeak.niter = 8 ∧
      |referencePeak.flux - 1.02e-9| ≤ (1 / 100) * 1.02e-9 ∧
      |referencePeak.flux_err - 3.84e-11| ≤ (1 / 100) * 3.84e-11 := by
  refine ⟨?_, rfl, ?_, ?_⟩ <;> norm_num [referencePeak, abs_le]

/-- One `assert_allclose` comparison: relative closeness within `rtol`. -/
def allclose1 (rtol a e : ℚ) : Prop := |a - e| ≤ rtol * |e|

/-- Elementwise `assert_allclose` on equal-length lists. -/
def allcloseL (rtol : ℚ) (actual expected : List ℚ) : Prop :=
  List.Forall₂ (allclose1 rtol) actual expected

/-- Modelled from the spec: the output energy-axis edges in GeV of the
energy-grouped Fermi run (`energy_edges=[10,100,1000] GeV`,
`sum_over_energy_groups=False`), as asserted (rtol 1e-4) by
`test_compute_ts_map_energy`. -/
def fermiGroupedEdgesGeV : List ℚ := [10, 84.471641, 500]

/-- Modelled from the spec: the peak-pixel TS values of the same
energy-grouped run, one per output energy slice, as asserted by
`test_compute_ts_map_energy`. -/
def fermiGroupedPeakTS : List ℚ := [804.86171, 16.988756]

/-- C5 counterexample: the requested edges 10, 100 and 1000 GeV do not
satisfy the repository's own assertion on the output energy axis (closeness
within rtol 1e-4 to 10, 84.471641 and 500 GeV), so the output axis does not
carry exactly the requested edges. -/
theorem grouped_energy_edges_counterexample :
    ¬ allcloseL (1 / 10000) [10, 100, 1000] fermiGroupedEdgesGeV ∧
      [10, 100, 1000] ≠ fermiGroupedEdgesGeV := by
  constructor
  · intro h
    rcases h with _ | ⟨h1, _ | ⟨h2, _⟩⟩
    revert h2
    norm_num [allclose1, abs_le, abs_of_nonneg]
  · intro h
    rw [fermiGroupedEdgesGeV] at h
    norm_num [List.cons.injEq] at h

/-- C5 (amended): exactly two energy slices are produced, and the output
energy axis carries the requested edges adjusted to the dataset's native
binning — 10, about 84.47 and 500 GeV, satisfying the test's closeness
assertion — rather than exactly the requested 10, 100 and 1000 GeV. -/
theorem grouped_energy_axis :
    fermiGroupedPeakTS.length = 2 ∧
      fermiGroupedEdgesGeV.length = 3 ∧
      allcloseL (1 / 10000) fermiGroupedEdgesGeV [10, 84.471641, 500] ∧
      fermiGroupedEdgesGeV ≠ [10, 100, 1000] := by
  refine ⟨rfl, rfl, ?_, ?_⟩
  · refine List.Forall₂.cons ?_ (List.Forall₂.cons ?_
      (List.Forall₂.cons ?_ List.Forall₂.nil)) <;>
      norm_num [allclose1, abs_le, abs_of_nonneg]
  · intro h
    rw [fermiGroupedEdgesGeV] at h
    norm_num [List.cons.injEq] at h

/-- The peak-pixel outputs of a run with optional asymmetric errors and
upper limits. -/
structure PsfPeakValues where
  ts : ℚ
  niter : ℕ
  flux : ℚ
  flux_err : ℚ
  flux_errp : ℚ
  flux_errn : ℚ
  flux_ul : ℚ
deriving DecidableEq, Repr

/-- Modelled from the spec: the peak-pixel outputs (pixel (29, 29)) of the
PSF-convolved run on the Fermi dataset, as recorded by
`test_compute_ts_map_psf`. -/
def fermiPsfPeak : PsfPeakValues :=
  { ts := 835.140605
    niter := 7
    flux := 1.351949e-9
    flux_err := 7.93751176e-11
    flux_errp := 7.9376134e-11
    flux_errn := 7.5180404579e-11
    flux_ul := 1.63222157e-10 }

/-- C7 counterexample: at the recorded peak values the upper limit is far
below flux + flux_errp (it is below the flux itself), so the claimed
inequality `flux_ul > flux + flux_errp` fails. -/
theorem psf_flux_ul_counterexample :
    ¬ fermiPsfPeak.flux_ul > fermiPsfPeak.flux + fermiPsfPeak.flux_errp := by
  norm_num [fermiPsfPeak]

/-- C7 (amended): with PSF convolution enabled, the recorded peak-pixel
values satisfy `flux_errn ≤ flux_err ≤ flux_errp`, while the recorded
`flux_ul` is smaller than `flux + flux_errp`. -/
theorem psf_error_ordering :
    fermiPsfPeak.flux_errn ≤ fermiPsfPeak.flux_err ∧
      fermiPsfPeak.flux_err ≤ fermiPsfPeak.flux_errp ∧
      fermiPsfPeak.flux_ul < fermiPsfPeak.flux + fermiPsfPeak.flux_errp := by
  refine ⟨?_, ?_, ?_⟩ <;> norm_num [fermiPsfPeak]

end Gammapy
